import Mathlib

/-!
# Verification of the cable/conduit sizing calculations (`app.py`)

Shallow embedding of the pure engineering-calculation functions of
`src/app.py` (NBR 5410 cable sizing tool) and proofs about them.

Modelling conventions:
* Python floats become real numbers (`ℝ`); the formulas are verified exactly.
* Python dicts become association lists (`List (ℝ × _)` keyed by the gauge);
  `sorted(d.keys())` becomes `List.mergeSort` on the keys.
* The system type is kept as a `String` exactly as in the source
  (`"Trifásico"` selects three-phase; anything else is the single-phase branch).
* `float('inf')` returned by `calcular_icc_max` becomes an explicit sentinel
  constructor (`IccMax.infinito`).
-/

namespace App

/-- Embeds `calcular_queda_tensao_percentual(Ib, L_metros, CosPhi, V_LL,
R_ohm_km, X_ohm_km, sistema)` from `src/app.py`:
`L_km = L/1000`, `SinPhi = sqrt(max(0, 1 - CosPhi^2))`,
`K = sqrt 3` when `sistema == 'Trifásico'` else `2`,
`DeltaV = K*Ib*L_km*(R*CosPhi + X*SinPhi)`, result `= DeltaV / V_LL * 100`. -/
noncomputable def calcular_queda_tensao_percentual
    (Ib L_metros CosPhi V_LL R_ohm_km X_ohm_km : ℝ) (sistema : String) : ℝ :=
  let L_km := L_metros / 1000
  let SinPhi := Real.sqrt (max 0 (1 - CosPhi ^ 2))
  let K : ℝ := if sistema = "Trifásico" then Real.sqrt 3 else 2
  let DeltaV := K * Ib * L_km * (R_ohm_km * CosPhi + X_ohm_km * SinPhi)
  DeltaV / V_LL * 100

/-- The `FATOR_K_ICC['Cobre']` row of `src/app.py`. -/
def FATOR_K_ICC_cobre : List (String × ℕ) :=
  [("PVC (70°C)", 115), ("XLPE (90°C)", 176), ("EPR/HEPR (90°C)", 143)]

/-- The `FATOR_K_ICC['Alumínio']` row of `src/app.py`. -/
def FATOR_K_ICC_aluminio : List (String × ℕ) :=
  [("PVC (70°C)", 74), ("XLPE (90°C)", 145), ("EPR/HEPR (90°C)", 112)]

/-- The nested dict `FATOR_K_ICC` of `src/app.py`, keyed material → row. -/
def FATOR_K_ICC : List (String × List (String × ℕ)) :=
  [("Cobre", FATOR_K_ICC_cobre), ("Alumínio", FATOR_K_ICC_aluminio)]

/-- Embeds `get_fator_k(isolamento, material_condutor)` from `src/app.py`:
`material_key = material if material in FATOR_K_ICC else 'Cobre'`;
`isolamento_key = isolamento if isolamento in FATOR_K_ICC[material_key]
else 'PVC (70°C)'`; returns `FATOR_K_ICC[material_key][isolamento_key]`.
The `getD 0` defaults are unreachable: both fallback keys are present. -/
def get_fator_k (isolamento material_condutor : String) : ℕ :=
  let material_key :=
    if (FATOR_K_ICC.lookup material_condutor).isSome then material_condutor else "Cobre"
  let linha := (FATOR_K_ICC.lookup material_key).getD []
  let isolamento_key :=
    if (linha.lookup isolamento).isSome then isolamento else "PVC (70°C)"
  (linha.lookup isolamento_key).getD 0

/-- Embeds `calcular_corrente_cc_admissivel(Area_nominal_mm2, tempo_cc_seg,
k_fator)` from `src/app.py`: returns `0.0` when `tempo <= 0 or Area <= 0`,
else `(Area * k) / sqrt(tempo)`. -/
noncomputable def calcular_corrente_cc_admissivel
    (Area_nominal_mm2 tempo_cc_seg k_fator : ℝ) : ℝ :=
  if tempo_cc_seg ≤ 0 ∨ Area_nominal_mm2 ≤ 0 then 0
  else Area_nominal_mm2 * k_fator / Real.sqrt tempo_cc_seg

/-- Embeds the conformity test of the `btn_cc_check` handler in `src/app.py`:
`if icc_max_esperada > Icc_admissivel: error else: success`.
Returns `true` exactly on the success (conforming) branch. -/
noncomputable def criterio_termico_conforme (icc_max_esperada Icc_admissivel : ℝ) : Bool :=
  if Icc_admissivel < icc_max_esperada then false else true

/-- Value returned by `calcular_icc_max`: either the `float('inf')` sentinel
used when the total impedance is zero, or a finite current. -/
inductive IccMax : Type
  | infinito : IccMax
  | valor : ℝ → IccMax

/-- Embeds `calcular_icc_max(V_LL, sistema, R_cabo, X_cabo, R_fonte_ohm,
X_fonte_ohm)` from `src/app.py`: totals `R`, `X`, `Z = sqrt(R²+X²)`;
returns `(inf, Z)` when `Z == 0`, else `(V/(sqrt 3 * Z), Z)` for
`'Trifásico'` and `(V/(2*Z), Z)` otherwise. -/
noncomputable def calcular_icc_max
    (V_LL : ℝ) (sistema : String) (R_cabo X_cabo R_fonte_ohm X_fonte_ohm : ℝ) :
    IccMax × ℝ :=
  let R_total := R_cabo + R_fonte_ohm
  let X_total := X_cabo + X_fonte_ohm
  let Z_total := Real.sqrt (R_total ^ 2 + X_total ^ 2)
  if Z_total = 0 then (IccMax.infinito, Z_total)
  else if sistema = "Trifásico" then
    (IccMax.valor (V_LL / (Real.sqrt 3 * Z_total)), Z_total)
  else
    (IccMax.valor (V_LL / (2 * Z_total)), Z_total)

end App

namespace App

/-- **C2.** `calcular_queda_tensao_percentual` equals
`100 · K · Ib · (L/1000) · (R·cosφ + X·sinφ) / V_LL` with
`sinφ = √(max 0 (1 − cosφ²))` and `K = √3` (three-phase) or `2`
(single-phase); it is a total function, so there are no error paths.
Stated for all real inputs, hence in particular on the claimed domain. -/
theorem calcular_queda_formula
    (Ib L CosPhi V R X : ℝ) (sistema : String) :
    calcular_queda_tensao_percentual Ib L CosPhi V R X sistema =
      100 * (if sistema = "Trifásico" then Real.sqrt 3 else 2) * Ib * (L / 1000) *
        (R * CosPhi + X * Real.sqrt (max 0 (1 - CosPhi ^ 2))) / V := by
  unfold calcular_queda_tensao_percentual
  split <;> ring

/-- **C9.** The voltage-drop percentage is homogeneous of degree 1 in the
design current `Ib` and in the length `L` (all other arguments fixed); being
a function of its arguments only, it is pure. -/
theorem calcular_queda_homogenea
    (c Ib L CosPhi V R X : ℝ) (sistema : String) :
    calcular_queda_tensao_percentual (c * Ib) L CosPhi V R X sistema =
        c * calcular_queda_tensao_percentual Ib L CosPhi V R X sistema ∧
      calcular_queda_tensao_percentual Ib (c * L) CosPhi V R X sistema =
        c * calcular_queda_tensao_percentual Ib L CosPhi V R X sistema := by
  unfold calcular_queda_tensao_percentual
  constructor <;> ring

/-- **C6.** The admissible short-circuit current is `0` on degenerate input
(`t ≤ 0` or `A ≤ 0`, with no exception) and `A·k/√t` otherwise, and the
thermal check declares the cable conforming iff the expected current is
`≤` the admissible one. -/
theorem verificacao_termica_spec (A t k esperada : ℝ) :
    calcular_corrente_cc_admissivel A t k =
        (if t ≤ 0 ∨ A ≤ 0 then 0 else A * k / Real.sqrt t) ∧
      (criterio_termico_conforme esperada (calcular_corrente_cc_admissivel A t k) = true ↔
        esperada ≤ calcular_corrente_cc_admissivel A t k) := by
  refine ⟨rfl, ?_⟩
  unfold criterio_termico_conforme
  split
  · next hlt => simp [not_le.mpr hlt]
  · next hge => simp [le_of_not_lt hge]

/-- **C5.** `calcular_icc_max` totals the resistances and reactances,
returns `Z = √(R_total² + X_total²)` as second component, yields the
positive-infinity sentinel (not a fault — the function is total) when
`Z = 0`, and otherwise `V/(√3·Z)` (three-phase) or `V/(2·Z)` (single-phase). -/
theorem calcular_icc_max_spec
    (V : ℝ) (sistema : String) (Rc Xc Rf Xf : ℝ) :
    (calcular_icc_max V sistema Rc Xc Rf Xf).2 =
        Real.sqrt ((Rc + Rf) ^ 2 + (Xc + Xf) ^ 2) ∧
      (Real.sqrt ((Rc + Rf) ^ 2 + (Xc + Xf) ^ 2) = 0 →
        (calcular_icc_max V sistema Rc Xc Rf Xf).1 = IccMax.infinito) ∧
      (Real.sqrt ((Rc + Rf) ^ 2 + (Xc + Xf) ^ 2) ≠ 0 →
        (calcular_icc_max V sistema Rc Xc Rf Xf).1 =
          IccMax.valor (if sistema = "Trifásico" then
              V / (Real.sqrt 3 * Real.sqrt ((Rc + Rf) ^ 2 + (Xc + Xf) ^ 2))
            else V / (2 * Real.sqrt ((Rc + Rf) ^ 2 + (Xc + Xf) ^ 2)))) := by
  simp only [calcular_icc_max]
  refine ⟨?_, ?_, ?_⟩
  · split
    · rfl
    · split <;> rfl
  · intro h
    simp [h]
  · intro h
    simp only [if_neg h]
    split <;> simp_all

/-- Witness for C5 at concrete inputs: `R = 3, X = 4` gives `Z = 5 ≠ 0` and a
finite three-phase current, while all-zero impedances give the sentinel. -/
theorem calcular_icc_max_spec_witness :
    (calcular_icc_max 380 "Trifásico" 3 4 0 0).1 =
        IccMax.valor (380 / (Real.sqrt 3 * 5)) ∧
      (calcular_icc_max 0 "Monofásico" 0 0 0 0).1 = IccMax.infinito := by
  have h5 : Real.sqrt (((3 : ℝ) + 0) ^ 2 + ((4 : ℝ) + 0) ^ 2) = 5 := by
    rw [show ((3 : ℝ) + 0) ^ 2 + ((4 : ℝ) + 0) ^ 2 = 5 ^ 2 by norm_num]
    exact Real.sqrt_sq (by norm_num)
  have h0 : Real.sqrt (((0 : ℝ) + 0) ^ 2 + ((0 : ℝ) + 0) ^ 2) = 0 := by
    simp
  constructor
  · have := (calcular_icc_max_spec 380 "Trifásico" 3 4 0 0).2.2 (by rw [h5]; norm_num)
    rw [this, if_pos rfl, h5]
  · exact (calcular_icc_max_spec 0 "Monofásico" 0 0 0 0).2.1 h0

/-- **C7 (counterexample).** The combination (`Alumínio`, `"Isolamento X"`) is
not in the k-factor table, yet `get_fator_k` returns `74` (the Aluminium/PVC
entry), not the Copper/PVC default `115`: the fallback is componentwise, not
to the Copper/PVC pair. -/
theorem get_fator_k_contraexemplo :
    FATOR_K_ICC_aluminio.lookup "Isolamento X" = none ∧
      get_fator_k "Isolamento X" "Alumínio" = 74 ∧
      get_fator_k "Isolamento X" "Alumínio" ≠ 115 := by
  decide

/-- **C7 (amended).** `get_fator_k` never fails and resolves each component
separately: a recognized (material, insulation) pair gives its tabulated k;
an unrecognized material falls back to the `Cobre` row (same behaviour as
calling with `"Cobre"`); a recognized material with unrecognized insulation
falls back to that material's own `PVC (70°C)` entry — which is the
Copper/PVC value 115 only when the material resolved to `Cobre`. -/
theorem get_fator_k_spec :
    (∀ material linha isolamento k,
        FATOR_K_ICC.lookup material = some linha →
        linha.lookup isolamento = some k →
        get_fator_k isolamento material = k) ∧
      (∀ isolamento material, FATOR_K_ICC.lookup material = none →
        get_fator_k isolamento material = get_fator_k isolamento "Cobre") ∧
      (∀ material linha isolamento,
        FATOR_K_ICC.lookup material = some linha →
        linha.lookup isolamento = none →
        get_fator_k isolamento material = (linha.lookup "PVC (70°C)").getD 0) := by
  refine ⟨?_, ?_, ?_⟩
  · intro material linha isolamento k h1 h2
    simp [get_fator_k, h1, h2]
  · intro isolamento material h
    have hc : FATOR_K_ICC.lookup "Cobre" = some FATOR_K_ICC_cobre := by decide
    simp only [get_fator_k]
    rw [h, hc]
    simp
  · intro material linha isolamento h1 h2
    simp [get_fator_k, h1, h2]

/-- Witness for the amended C7: the recognized pair (`Alumínio`,
`XLPE (90°C)`) returns its tabulated value 145. -/
theorem get_fator_k_spec_witness : get_fator_k "XLPE (90°C)" "Alumínio" = 145 :=
  get_fator_k_spec.1 "Alumínio" FATOR_K_ICC_aluminio "XLPE (90°C)" 145
    (by decide) (by decide)

/-- Python `sorted` on a list of floats (used on dict keys in `app.py`). -/
noncomputable def ordenar_reais (l : List ℝ) : List ℝ :=
  l.mergeSort fun a b => decide (a ≤ b)

/-- Python `sorted` on a list of ints (the index list in
`validar_circuitos_agrupados`). -/
def ordenar_nat (l : List ℕ) : List ℕ :=
  l.mergeSort fun a b => decide (a ≤ b)

/-- Python `list.index`: index of the first occurrence, `none` when the
element is absent (where CPython raises `ValueError`). -/
noncomputable def indice_primeiro (a : ℝ) : List ℝ → Option ℕ
  | [] => none
  | x :: xs => if x = a then some 0 else (indice_primeiro a xs).map (· + 1)

/-- Failure message of rule 1 in `validar_circuitos_agrupados`. -/
def MSG_MAX3 : String := "O agrupamento não deve exceder 3 bitolas nominais diferentes."

/-- Failure message of the index lookup in `validar_circuitos_agrupados`. -/
def MSG_NAO_ENCONTRADA : String :=
  "Erro na validação: Uma bitola selecionada não foi encontrada na lista nominal."

/-- Failure message of the consecutiveness rule in
`validar_circuitos_agrupados` (quotes around the word saltos elided). -/
def MSG_NAO_CONSECUTIVAS : String :=
  "As bitolas agrupadas devem ser **consecutivas** na escala nominal (ex: 10, 16, 25). Não são permitidos saltos."

/-- Success message of `validar_circuitos_agrupados`. -/
def MSG_OK : String := "Validação OK."

/-- The list comprehension `[todas_opcoes_bitola.index(b) for b in bs]` of
`validar_circuitos_agrupados`, with `none` playing the role of the caught
`ValueError` when some gauge is absent. -/
noncomputable def indices_de (todas : List ℝ) : List ℝ → Option (List ℕ)
  | [] => some []
  | b :: bs =>
    match indice_primeiro b todas, indices_de todas bs with
    | some i, some is => some (i :: is)
    | _, _ => none

/-- Embeds `validar_circuitos_agrupados(bitolas_agrupadas,
todas_opcoes_bitola)` from `src/app.py`: sorts the proposed gauges, rejects
more than 3, and for 2 or more maps each to its index in the nominal scale
(lookup failure when absent) and requires `indices[-1] - indices[0] ==
len(indices) - 1`. -/
noncomputable def validar_circuitos_agrupados
    (bitolas_agrupadas todas_opcoes_bitola : List ℝ) : Bool × String :=
  let bs := ordenar_reais bitolas_agrupadas
  let num_bitolas := bs.length
  if 3 < num_bitolas then (false, MSG_MAX3)
  else if 1 < num_bitolas then
    match indices_de todas_opcoes_bitola bs with
    | none => (false, MSG_NAO_ENCONTRADA)
    | some idxs =>
      let indices_selecionados := ordenar_nat idxs
      let diferenca_indices :=
        indices_selecionados.getLast?.getD 0 - indices_selecionados.head?.getD 0
      let tamanho_agrupamento := indices_selecionados.length - 1
      if diferenca_indices ≠ tamanho_agrupamento then (false, MSG_NAO_CONSECUTIVAS)
      else (true, MSG_OK)
  else (true, MSG_OK)

end App

namespace App

/-- `indice_primeiro` succeeds exactly on members of the list. -/
theorem indice_primeiro_isSome_iff (a : ℝ) (l : List ℝ) :
    (indice_primeiro a l).isSome ↔ a ∈ l := by
  induction l with
  | nil => simp [indice_primeiro]
  | cons x xs ih =>
    by_cases hx : x = a
    · simp [indice_primeiro, hx]
    · simp [indice_primeiro, hx, ih, Ne.symm hx]

/-- The index comprehension fails as soon as one gauge is absent. -/
theorem indices_de_eq_none (todas : List ℝ) :
    ∀ (l : List ℝ) (b : ℝ), b ∈ l → indice_primeiro b todas = none →
      indices_de todas l = none := by
  intro l
  induction l with
  | nil => simp
  | cons x xs ih =>
    intro b hb hfb
    rcases List.mem_cons.mp hb with h | h
    · subst h
      simp [indices_de, hfb]
    · rw [indices_de, ih b h hfb]
      cases indice_primeiro x todas <;> rfl

/-- When every gauge is present, the index comprehension returns the list of
first indices. -/
theorem indices_de_eq_some (todas : List ℝ) :
    ∀ l : List ℝ, (∀ b ∈ l, (indice_primeiro b todas).isSome) →
      indices_de todas l = some (l.map fun b => (indice_primeiro b todas).getD 0) := by
  intro l
  induction l with
  | nil => intro _; rfl
  | cons x xs ih =>
    intro h
    obtain ⟨v, hv⟩ := Option.isSome_iff_exists.mp (h x (List.mem_cons_self x xs))
    rw [indices_de, hv, ih fun b hb => h b (List.mem_cons_of_mem x hb)]
    simp [hv]

/-- `max?` only depends on the multiset of elements. -/
theorem max?_of_perm {K L : List ℕ} (h : K.Perm L) : K.max? = L.max? := by
  cases hK : K.max? with
  | none =>
    rw [List.max?_eq_none_iff] at hK
    subst hK
    simp [h.symm.eq_nil]
  | some m =>
    rw [List.max?_eq_some_iff'] at hK
    symm
    rw [List.max?_eq_some_iff']
    exact ⟨h.subset hK.1, fun b hb => hK.2 b (h.symm.subset hb)⟩

/-- `min?` only depends on the multiset of elements. -/
theorem min?_of_perm {K L : List ℕ} (h : K.Perm L) : K.min? = L.min? := by
  cases hK : K.min? with
  | none =>
    rw [List.min?_eq_none_iff] at hK
    subst hK
    simp [h.symm.eq_nil]
  | some m =>
    rw [List.min?_eq_some_iff'] at hK
    symm
    rw [List.min?_eq_some_iff']
    exact ⟨h.subset hK.1, fun b hb => hK.2 b (h.symm.subset hb)⟩

/-- On an ascending list the last element is the maximum. -/
theorem getLast?_getD_of_sorted :
    ∀ K : List ℕ, K.Pairwise (· ≤ ·) → K.getLast?.getD 0 = K.max?.getD 0 := by
  intro K
  induction K with
  | nil => intro _; rfl
  | cons a t ih =>
    intro hs
    cases t with
    | nil => rfl
    | cons b t' =>
      have hle : ∀ x ∈ b :: t', a ≤ x := (List.pairwise_cons.mp hs).1
      have hs' : (b :: t').Pairwise (· ≤ ·) := (List.pairwise_cons.mp hs).2
      obtain ⟨m, hm⟩ : ∃ m, (b :: t').max? = some m := by
        cases hmm : (b :: t').max? with
        | none => simp [List.max?_eq_none_iff] at hmm
        | some m => exact ⟨m, rfl⟩
      obtain ⟨hmem, hbound⟩ := List.max?_eq_some_iff'.mp hm
      have ham : a ≤ m := hle m hmem
      have hmax : (a :: b :: t').max? = some m := by
        rw [List.max?_eq_some_iff']
        refine ⟨List.mem_cons_of_mem a hmem, fun x hx => ?_⟩
        rcases List.mem_cons.mp hx with h | h
        · exact h ▸ ham
        · exact hbound x h
      calc (a :: b :: t').getLast?.getD 0
          = (b :: t').getLast?.getD 0 := by rw [List.getLast?_cons_cons]
        _ = (b :: t').max?.getD 0 := ih hs'
        _ = (a :: b :: t').max?.getD 0 := by rw [hm, hmax]

/-- On an ascending list the head is the minimum. -/
theorem head?_getD_of_sorted :
    ∀ K : List ℕ, K.Pairwise (· ≤ ·) → K.head?.getD 0 = K.min?.getD 0 := by
  intro K hs
  cases K with
  | nil => rfl
  | cons a t =>
    have hle : ∀ x ∈ t, a ≤ x := (List.pairwise_cons.mp hs).1
    have : (a :: t).min? = some a := by
      rw [List.min?_eq_some_iff']
      refine ⟨List.mem_cons_self a t, fun b hb => ?_⟩
      rcases List.mem_cons.mp hb with h | h
      · exact h ▸ le_rfl
      · exact hle b h
    simp [this]

/-- `ordenar_nat` produces an ascending list. -/
theorem ordenar_nat_pairwise (K : List ℕ) : (ordenar_nat K).Pairwise (· ≤ ·) := by
  have h := @List.sorted_mergeSort ℕ (fun a b => decide (a ≤ b))
    (fun a b c hab hbc => by
      have hab' : a ≤ b := by simpa using hab
      have hbc' : b ≤ c := by simpa using hbc
      simpa using le_trans hab' hbc')
    (fun a b => by
      rcases Nat.le_total a b with h | h <;> simp [h])
    K
  exact h.imp fun hab => by simpa using hab

/-- **C3.** `validar_circuitos_agrupados` on a collection of distinct gauges:
a count above 3 fails with the rule-1 message; for counts of 2 or 3 it fails
with the lookup message when some gauge is absent from the nominal scale,
and when all are present it succeeds exactly when
`max(index) − min(index) = count − 1`, i.e. the gauges occupy a contiguous
run of the scale. -/
theorem validar_circuitos_agrupados_spec
    (bs opts : List ℝ) (_hnd : bs.Nodup) :
    (3 < bs.length → validar_circuitos_agrupados bs opts = (false, MSG_MAX3)) ∧
      (1 < bs.length → bs.length ≤ 3 → (∃ b ∈ bs, b ∉ opts) →
        validar_circuitos_agrupados bs opts = (false, MSG_NAO_ENCONTRADA)) ∧
      (1 < bs.length → bs.length ≤ 3 → (∀ b ∈ bs, b ∈ opts) →
        (validar_circuitos_agrupados bs opts = (true, MSG_OK) ↔
          (bs.map fun b => (indice_primeiro b opts).getD 0).max?.getD 0 -
              (bs.map fun b => (indice_primeiro b opts).getD 0).min?.getD 0 =
            bs.length - 1)) := by
  have hperm : (ordenar_reais bs).Perm bs := List.mergeSort_perm bs _
  have hlen : (ordenar_reais bs).length = bs.length := hperm.length_eq
  refine ⟨?_, ?_, ?_⟩
  · intro h3
    simp only [validar_circuitos_agrupados]
    rw [hlen, if_pos h3]
  · rintro h1 h3 ⟨b, hb, hbn⟩
    have hnone : indice_primeiro b opts = none :=
      Option.not_isSome_iff_eq_none.mp
        (fun hs => hbn ((indice_primeiro_isSome_iff b opts).mp hs))
    have hde : indices_de opts (ordenar_reais bs) = none :=
      indices_de_eq_none opts _ b (hperm.mem_iff.mpr hb) hnone
    simp only [validar_circuitos_agrupados]
    rw [hlen, if_neg (by omega), if_pos h1, hde]
  · intro h1 h3 hmem
    have hsome : ∀ b ∈ ordenar_reais bs, (indice_primeiro b opts).isSome :=
      fun b hb => (indice_primeiro_isSome_iff b opts).mpr (hmem b (hperm.subset hb))
    have hde : indices_de opts (ordenar_reais bs) =
        some ((ordenar_reais bs).map fun b => (indice_primeiro b opts).getD 0) :=
      indices_de_eq_some opts _ hsome
    have hJI : ((ordenar_reais bs).map fun b => (indice_primeiro b opts).getD 0).Perm
        (bs.map fun b => (indice_primeiro b opts).getD 0) := hperm.map _
    have hKJ : (ordenar_nat
        ((ordenar_reais bs).map fun b => (indice_primeiro b opts).getD 0)).Perm
        ((ordenar_reais bs).map fun b => (indice_primeiro b opts).getD 0) :=
      List.mergeSort_perm _ _
    have hKs := ordenar_nat_pairwise
      ((ordenar_reais bs).map fun b => (indice_primeiro b opts).getD 0)
    have hmax := getLast?_getD_of_sorted _ hKs
    have hmin := head?_getD_of_sorted _ hKs
    have hKlen : (ordenar_nat
        ((ordenar_reais bs).map fun b => (indice_primeiro b opts).getD 0)).length =
        bs.length := by
      rw [hKJ.length_eq, List.length_map, hlen]
    simp only [validar_circuitos_agrupados]
    rw [hlen]
    rw [if_neg (by omega), if_pos h1]
    simp only [hde]
    rw [hmax, hmin, hKlen, max?_of_perm (hKJ.trans hJI), min?_of_perm (hKJ.trans hJI)]
    by_cases hEq :
        (bs.map fun b => (indice_primeiro b opts).getD 0).max?.getD 0 -
          (bs.map fun b => (indice_primeiro b opts).getD 0).min?.getD 0 = bs.length - 1
    · rw [if_neg (by simpa using hEq)]
      simp [hEq]
    · rw [if_pos (by simpa using hEq)]
      simp [hEq]

/-- Witness for C3: gauges `{1, 2}` on the scale `[1, 2]` are contiguous and
the validator accepts them. -/
theorem validar_circuitos_agrupados_spec_witness :
    validar_circuitos_agrupados [1, 2] [1, 2] = (true, MSG_OK) := by
  have h := (validar_circuitos_agrupados_spec [1, 2] [1, 2]
      (by norm_num)).2.2 (by norm_num) (by norm_num) (fun b hb => hb)
  apply h.mpr
  have e1 : indice_primeiro 1 [1, 2] = some 0 := by
    simp [indice_primeiro]
  have e2 : indice_primeiro 2 [1, 2] = some 1 := by
    norm_num [indice_primeiro]
  simp [e1, e2]

/-- **C10.** A proposed collection with at most one gauge is accepted with
the success message for every nominal scale (the scale is never consulted,
so a single gauge absent from the scale is still accepted), and the lookup
error can only be produced for collections of 2 or 3 gauges. -/
theorem validar_circuitos_agrupados_pequeno (opts bs : List ℝ) :
    (bs.length ≤ 1 → validar_circuitos_agrupados bs opts = (true, MSG_OK)) ∧
      ((validar_circuitos_agrupados bs opts).2 = MSG_NAO_ENCONTRADA →
        2 ≤ bs.length ∧ bs.length ≤ 3) := by
  have hperm : (ordenar_reais bs).Perm bs := List.mergeSort_perm bs _
  have hlen : (ordenar_reais bs).length = bs.length := hperm.length_eq
  constructor
  · intro h1
    simp only [validar_circuitos_agrupados]
    rw [hlen, if_neg (by omega), if_neg (by omega)]
  · intro hmsg
    by_cases h3 : 3 < bs.length
    · exfalso
      have hres : validar_circuitos_agrupados bs opts = (false, MSG_MAX3) := by
        simp only [validar_circuitos_agrupados]
        rw [hlen, if_pos h3]
      rw [hres] at hmsg
      exact absurd hmsg (by decide)
    · by_cases h1 : 1 < bs.length
      · omega
      · exfalso
        have hres : validar_circuitos_agrupados bs opts = (true, MSG_OK) := by
          simp only [validar_circuitos_agrupados]
          rw [hlen, if_neg h3, if_neg h1]
        rw [hres] at hmsg
        exact absurd hmsg (by decide)

/-- Witness for C10: a singleton gauge not present in the (empty) scale is
still accepted. -/
theorem validar_circuitos_agrupados_pequeno_witness :
    validar_circuitos_agrupados [7] [] = (true, MSG_OK) :=
  (validar_circuitos_agrupados_pequeno [] [7]).1 (by simp)

/-- One row of the conductor table `TABELA_CABOS_E_CUSTO` of `src/app.py`
(the 4-tuple `[R_ohm_km, X_ohm_km, I_admissivel, Custo_por_metro]`). -/
structure Cabo where
  R_ohm_km : ℝ
  X_ohm_km : ℝ
  I_admissivel : ℝ
  Custo_metro : ℝ

/-- The three dict shapes `otimizar_bitola_por_custo` can return:
the empty-table dict `(bitola = None, atende_corrente = False)`; the
exhausted-loop dict `(bitola = None, queda/custo = inf, atende_corrente)`;
and the success dict `(bitola, queda_tensao_perc, custo_total,
I_admissivel_utilizada)` (which also carries `atende_corrente = True`). -/
inductive ResultadoOtimizacao : Type
  | tabelaVazia : ResultadoOtimizacao
  | semSolucao : Bool → ResultadoOtimizacao
  | solucao : ℝ → ℝ → ℝ → ℝ → ResultadoOtimizacao

/-- The `bitola` key of the returned dict (`none` = Python `None`). -/
def bitola_resultado : ResultadoOtimizacao → Option ℝ
  | .tabelaVazia => none
  | .semSolucao _ => none
  | .solucao b _ _ _ => some b

/-- The `atende_corrente` key of the returned dict. -/
def atende_corrente : ResultadoOtimizacao → Bool
  | .tabelaVazia => false
  | .semSolucao f => f
  | .solucao _ _ _ _ => true

/-- Python `sorted(tabela_cabos.keys())` with the subsequent dict lookups:
the association list sorted by gauge. -/
noncomputable def ordenar_cabos (tabela : List (ℝ × Cabo)) : List (ℝ × Cabo) :=
  tabela.mergeSort fun p q => decide (p.1 ≤ q.1)

/-- The `for bitola in bitolas_ordenadas` loop of `otimizar_bitola_por_custo`
in `src/app.py`, with the running `atende_corrente` flag made explicit:
skip when the uncorrected ampacity is below the corrected current, else set
the flag and return the first gauge whose drop is within the limit. -/
noncomputable def otimizar_loop
    (Ib L_metros CosPhi V_LL DeltaV_MAX I_CORRIGIDA : ℝ) (sistema : String) :
    List (ℝ × Cabo) → Bool → ResultadoOtimizacao
  | [], atende => .semSolucao atende
  | (bitola, cabo) :: resto, atende =>
    if cabo.I_admissivel < I_CORRIGIDA then
      otimizar_loop Ib L_metros CosPhi V_LL DeltaV_MAX I_CORRIGIDA sistema resto atende
    else
      let dv_perc := calcular_queda_tensao_percentual Ib L_metros CosPhi V_LL
        cabo.R_ohm_km cabo.X_ohm_km sistema
      if dv_perc ≤ DeltaV_MAX then
        .solucao bitola dv_perc (cabo.Custo_metro * L_metros) cabo.I_admissivel
      else
        otimizar_loop Ib L_metros CosPhi V_LL DeltaV_MAX I_CORRIGIDA sistema resto true

/-- Embeds `otimizar_bitola_por_custo(Ib, L_metros, CosPhi, V_LL, DeltaV_MAX,
CA_agrupamento, tabela_cabos, sistema)` from `src/app.py`: empty table →
immediate failure dict; else `I_CORRIGIDA = Ib / CA_agrupamento` and the
first-fit scan over the gauge-sorted table starting with
`atende_corrente = False`. -/
noncomputable def otimizar_bitola_por_custo
    (Ib L_metros CosPhi V_LL DeltaV_MAX CA_agrupamento : ℝ)
    (tabela_cabos : List (ℝ × Cabo)) (sistema : String) : ResultadoOtimizacao :=
  match tabela_cabos with
  | [] => .tabelaVazia
  | _ :: _ =>
    otimizar_loop Ib L_metros CosPhi V_LL DeltaV_MAX (Ib / CA_agrupamento) sistema
      (ordenar_cabos tabela_cabos) false

end App

namespace App

/-- The scan returns the entry after any run of entries that do not satisfy
both criteria, whatever the value of the running flag. -/
theorem otimizar_loop_acha
    (Ib L CosPhi V dvmax Icorr : ℝ) (sistema : String)
    (bitola : ℝ) (cabo : Cabo) (l₂ : List (ℝ × Cabo))
    (hamp : Icorr ≤ cabo.I_admissivel)
    (hdv : calcular_queda_tensao_percentual Ib L CosPhi V
      cabo.R_ohm_km cabo.X_ohm_km sistema ≤ dvmax) :
    ∀ (l₁ : List (ℝ × Cabo)) (flag : Bool),
      (∀ p ∈ l₁, ¬(Icorr ≤ p.2.I_admissivel ∧
        calcular_queda_tensao_percentual Ib L CosPhi V
          p.2.R_ohm_km p.2.X_ohm_km sistema ≤ dvmax)) →
      otimizar_loop Ib L CosPhi V dvmax Icorr sistema (l₁ ++ (bitola, cabo) :: l₂) flag =
        .solucao bitola
          (calcular_queda_tensao_percentual Ib L CosPhi V
            cabo.R_ohm_km cabo.X_ohm_km sistema)
          (cabo.Custo_metro * L) cabo.I_admissivel := by
  intro l₁
  induction l₁ with
  | nil =>
    intro flag _
    rw [List.nil_append, otimizar_loop, if_neg (not_lt.mpr hamp)]
    simp only [if_pos hdv]
  | cons p l₁ ih =>
    intro flag hall
    obtain ⟨pb, pc⟩ := p
    have hp := hall (pb, pc) (List.mem_cons_self _ _)
    have htail : ∀ q ∈ l₁, ¬(Icorr ≤ q.2.I_admissivel ∧
        calcular_queda_tensao_percentual Ib L CosPhi V
          q.2.R_ohm_km q.2.X_ohm_km sistema ≤ dvmax) :=
      fun q hq => hall q (List.mem_cons_of_mem _ hq)
    rw [List.cons_append, otimizar_loop]
    by_cases hski : pc.I_admissivel < Icorr
    · rw [if_pos hski]
      exact ih flag htail
    · rw [if_neg hski]
      have hpampa : Icorr ≤ pc.I_admissivel := not_lt.mp hski
      have hpdv : ¬(calcular_queda_tensao_percentual Ib L CosPhi V
          pc.R_ohm_km pc.X_ohm_km sistema ≤ dvmax) :=
        fun hq => hp ⟨hpampa, hq⟩
      simp only [if_neg hpdv]
      exact ih true htail

/-- When no entry satisfies both criteria the scan exhausts the list and
returns the failure dict whose flag records whether any entry met the
(corrected) ampacity criterion. -/
theorem otimizar_loop_esgota
    (Ib L CosPhi V dvmax Icorr : ℝ) (sistema : String) :
    ∀ (l : List (ℝ × Cabo)) (flag : Bool),
      (∀ p ∈ l, ¬(Icorr ≤ p.2.I_admissivel ∧
        calcular_queda_tensao_percentual Ib L CosPhi V
          p.2.R_ohm_km p.2.X_ohm_km sistema ≤ dvmax)) →
      ∃ f, otimizar_loop Ib L CosPhi V dvmax Icorr sistema l flag = .semSolucao f ∧
        (f = true ↔ flag = true ∨ ∃ p ∈ l, Icorr ≤ p.2.I_admissivel) := by
  intro l
  induction l with
  | nil =>
    intro flag _
    exact ⟨flag, by rw [otimizar_loop], by simp⟩
  | cons p l ih =>
    intro flag hall
    obtain ⟨pb, pc⟩ := p
    have hp := hall (pb, pc) (List.mem_cons_self _ _)
    have htail : ∀ q ∈ l, ¬(Icorr ≤ q.2.I_admissivel ∧
        calcular_queda_tensao_percentual Ib L CosPhi V
          q.2.R_ohm_km q.2.X_ohm_km sistema ≤ dvmax) :=
      fun q hq => hall q (List.mem_cons_of_mem _ hq)
    rw [otimizar_loop]
    by_cases hski : pc.I_admissivel < Icorr
    · rw [if_pos hski]
      obtain ⟨f, hf, hiff⟩ := ih flag htail
      refine ⟨f, hf, ?_⟩
      rw [hiff]
      constructor
      · rintro (h | h)
        · exact Or.inl h
        · exact Or.inr (by
            obtain ⟨q, hq, hle⟩ := h
            exact ⟨q, List.mem_cons_of_mem _ hq, hle⟩)
      · rintro (h | ⟨q, hq, hle⟩)
        · exact Or.inl h
        · rcases List.mem_cons.mp hq with rfl | h
          · exact absurd hle (not_le.mpr hski)
          · exact Or.inr ⟨q, h, hle⟩
    · rw [if_neg hski]
      have hpampa : Icorr ≤ pc.I_admissivel := not_lt.mp hski
      have hpdv : ¬(calcular_queda_tensao_percentual Ib L CosPhi V
          pc.R_ohm_km pc.X_ohm_km sistema ≤ dvmax) :=
        fun hq => hp ⟨hpampa, hq⟩
      simp only [if_neg hpdv]
      obtain ⟨f, hf, hiff⟩ := ih true htail
      refine ⟨f, hf, ?_⟩
      rw [hiff]
      constructor
      · intro _
        exact Or.inr ⟨(pb, pc), List.mem_cons_self _ _, hpampa⟩
      · intro _
        exact Or.inl rfl

/-- The gauge-sorted table is ascending in the gauge. -/
theorem ordenar_cabos_pairwise (tabela : List (ℝ × Cabo)) :
    ((ordenar_cabos tabela).map Prod.fst).Pairwise (· ≤ ·) := by
  have h := @List.sorted_mergeSort (ℝ × Cabo) (fun p q => decide (p.1 ≤ q.1))
    (fun a b c hab hbc => by
      have hab' : a.1 ≤ b.1 := by simpa using hab
      have hbc' : b.1 ≤ c.1 := by simpa using hbc
      simpa using le_trans hab' hbc')
    (fun a b => by
      rcases le_total a.1 b.1 with h | h <;> simp [h])
    tabela
  rw [List.pairwise_map]
  exact h.imp fun hab => by simpa using hab

/-- **C1.** `otimizar_bitola_por_custo` on a non-empty table: it computes
`I_corrected = Ib / Ca`, visits the gauges in ascending nominal order (the
sorted scan order is ascending — second conjunct), skips every gauge whose
uncorrected ampacity is `< I_corrected`, and returns success at the first
gauge in that order whose ampacity qualifies and whose computed voltage drop
is `≤ DeltaV_MAX`, carrying that gauge, its drop,
`cost = cost_per_meter × length`, and its uncorrected ampacity. -/
theorem otimizar_bitola_por_custo_sucesso
    (Ib L CosPhi V dvmax Ca : ℝ) (sistema : String)
    (tabela l₁ l₂ : List (ℝ × Cabo)) (bitola : ℝ) (cabo : Cabo)
    (hne : tabela ≠ [])
    (hdec : ordenar_cabos tabela = l₁ ++ (bitola, cabo) :: l₂)
    (hantes : ∀ p ∈ l₁, ¬(Ib / Ca ≤ p.2.I_admissivel ∧
      calcular_queda_tensao_percentual Ib L CosPhi V
        p.2.R_ohm_km p.2.X_ohm_km sistema ≤ dvmax))
    (hamp : Ib / Ca ≤ cabo.I_admissivel)
    (hdv : calcular_queda_tensao_percentual Ib L CosPhi V
      cabo.R_ohm_km cabo.X_ohm_km sistema ≤ dvmax) :
    otimizar_bitola_por_custo Ib L CosPhi V dvmax Ca tabela sistema =
        .solucao bitola
          (calcular_queda_tensao_percentual Ib L CosPhi V
            cabo.R_ohm_km cabo.X_ohm_km sistema)
          (cabo.Custo_metro * L) cabo.I_admissivel ∧
      ((ordenar_cabos tabela).map Prod.fst).Pairwise (· ≤ ·) := by
  refine ⟨?_, ordenar_cabos_pairwise tabela⟩
  cases tabela with
  | nil => exact absurd rfl hne
  | cons t ts =>
    rw [otimizar_bitola_por_custo, hdec]
    exact otimizar_loop_acha Ib L CosPhi V dvmax (Ib / Ca) sistema bitola cabo l₂
      hamp hdv l₁ false hantes

/-- Witness for C1: a one-row table whose single gauge (10 mm², ampacity
100 A, cost 2 per metre) qualifies on both criteria; with `Ib = 50`,
`L = 100`, `cosφ = 1`, `V = 200`, single-phase, the drop is 5 % ≤ 6 %. -/
theorem otimizar_bitola_por_custo_sucesso_witness :
    otimizar_bitola_por_custo 50 100 1 200 6 1 [(10, ⟨1, 0, 100, 2⟩)] "Monofásico" =
      ResultadoOtimizacao.solucao 10 5 (2 * 100) 100 := by
  have hq : calcular_queda_tensao_percentual 50 100 1 200 1 0 "Monofásico" = 5 := by
    unfold calcular_queda_tensao_percentual
    norm_num
    rw [if_neg (by decide)]
    norm_num
  have h := (otimizar_bitola_por_custo_sucesso 50 100 1 200 6 1 "Monofásico"
    [(10, ⟨1, 0, 100, 2⟩)] [] [] 10 ⟨1, 0, 100, 2⟩
    (by simp)
    (by simp [ordenar_cabos])
    (by simp)
    (by norm_num)
    (by rw [hq]; norm_num)).1
  rw [h, hq]

/-- **C8.** The optimizer fails distinguishably (and, being a total Lean
function, never raises): the empty table yields the immediate failure dict
with `bitola = None` and `atende_corrente = False`; a non-empty table in
which no gauge satisfies both criteria yields the exhausted-loop failure
dict, with `bitola = None` and `atende_corrente = true` iff some gauge's
uncorrected ampacity is `≥ Ib / Ca`. -/
theorem otimizar_bitola_por_custo_falha
    (Ib L CosPhi V dvmax Ca : ℝ) (sistema : String) (tabela : List (ℝ × Cabo)) :
    (otimizar_bitola_por_custo Ib L CosPhi V dvmax Ca [] sistema =
        ResultadoOtimizacao.tabelaVazia ∧
      bitola_resultado ResultadoOtimizacao.tabelaVazia = none ∧
      atende_corrente ResultadoOtimizacao.tabelaVazia = false) ∧
      (tabela ≠ [] →
        (∀ p ∈ tabela, ¬(Ib / Ca ≤ p.2.I_admissivel ∧
          calcular_queda_tensao_percentual Ib L CosPhi V
            p.2.R_ohm_km p.2.X_ohm_km sistema ≤ dvmax)) →
        ∃ f, otimizar_bitola_por_custo Ib L CosPhi V dvmax Ca tabela sistema =
            ResultadoOtimizacao.semSolucao f ∧
          bitola_resultado (ResultadoOtimizacao.semSolucao f) = none ∧
          (f = true ↔ ∃ p ∈ tabela, Ib / Ca ≤ p.2.I_admissivel)) := by
  refine ⟨⟨rfl, rfl, rfl⟩, ?_⟩
  intro hne hall
  cases tabela with
  | nil => exact absurd rfl hne
  | cons t ts =>
    have hall' : ∀ p ∈ ordenar_cabos (t :: ts), ¬(Ib / Ca ≤ p.2.I_admissivel ∧
        calcular_queda_tensao_percentual Ib L CosPhi V
          p.2.R_ohm_km p.2.X_ohm_km sistema ≤ dvmax) :=
      fun p hp => hall p ((List.mergeSort_perm (t :: ts) _).subset hp)
    obtain ⟨f, hf, hiff⟩ := otimizar_loop_esgota Ib L CosPhi V dvmax (Ib / Ca) sistema
      (ordenar_cabos (t :: ts)) false hall'
    refine ⟨f, ?_, rfl, ?_⟩
    · rw [otimizar_bitola_por_custo, hf]
    · rw [hiff]
      constructor
      · rintro (h | ⟨p, hp, hle⟩)
        · exact absurd h (by simp)
        · exact ⟨p, (List.mergeSort_perm (t :: ts) _).subset hp, hle⟩
      · rintro ⟨p, hp, hle⟩
        exact Or.inr ⟨p, (List.mergeSort_perm (t :: ts) _).symm.subset hp, hle⟩

/-- Witness for C8: a one-row table whose single gauge has ampacity 40 A
while the corrected current is `90 / 1 = 90 A`: the loop exhausts with the
meets-ampacity flag `false`. -/
theorem otimizar_bitola_por_custo_falha_witness :
    otimizar_bitola_por_custo 90 100 1 200 6 1 [(10, ⟨1, 0, 40, 2⟩)] "Monofásico" =
      ResultadoOtimizacao.semSolucao false := by
  obtain ⟨f, hf, _, hiff⟩ := (otimizar_bitola_por_custo_falha 90 100 1 200 6 1 "Monofásico"
    [(10, ⟨1, 0, 40, 2⟩)]).2
    (by simp)
    (by
      rintro p hp hcrit
      rcases List.mem_singleton.mp hp with rfl
      have : (90 : ℝ) / 1 ≤ 40 := hcrit.1
      norm_num at this)
  have hfalse : f = false := by
    rcases Bool.eq_false_or_eq_true f with h | h
    · exfalso
      obtain ⟨p, hp, hle⟩ := hiff.mp h
      rcases List.mem_singleton.mp hp with rfl
      norm_num at hle
    · exact h
  rw [hf, hfalse]

/-- One row of the conduit table `TABELA_ELETRODUTOS` of `src/app.py`,
keyed by `Bitola_mm`; only the numeric fields used by the sizing logic are
kept (the `Bitola_pol` / `Bitola_Display` labels are presentation-only). -/
structure Eletroduto where
  Area_Interna_mm2 : ℝ
  Area_40_perc_mm2 : ℝ

/-- The success dict built by `dimensionar_eletroduto`: the copied conduit
row plus the keys `Bitola_mm`, `Area_Ocupada_Cabos` and
`Taxa_Ocupacao_Perc` added by the function. -/
structure ResultadoEletroduto where
  Bitola_mm : ℝ
  dados : Eletroduto
  Area_Ocupada_Cabos : ℝ
  Taxa_Ocupacao_Perc : ℝ

/-- Python dict membership + lookup `areas_cabos[bitola_float]` as a
first-match association-list search. -/
noncomputable def busca (b : ℝ) : List (ℝ × ℝ) → Option ℝ
  | [] => none
  | (k, v) :: resto => if k = b then some v else busca b resto

/-- The accumulation loop of `dimensionar_eletroduto`: sums
`areas_cabos[bitola] * num_condutores`, skipping (adding nothing for)
gauges absent from the insulated-area table. -/
noncomputable def area_total_ocupada (dados : List (ℝ × ℕ)) (areas : List (ℝ × ℝ)) : ℝ :=
  match dados with
  | [] => 0
  | (bitola, num) :: resto =>
    (match busca bitola areas with
     | some area_cabo => area_cabo * num
     | none => 0) + area_total_ocupada resto areas

/-- Python `sorted(eletrodutos.keys())` with the dict lookups: the conduit
association list sorted by nominal diameter. -/
noncomputable def ordenar_eletrodutos (els : List (ℝ × Eletroduto)) : List (ℝ × Eletroduto) :=
  els.mergeSort fun p q => decide (p.1 ≤ q.1)

/-- The `for bitola_mm in bitolas_eletrodutos_ordenadas` loop with its
`break`: first conduit whose 40 %-area admits the occupied area, together
with the attached occupied-area and fill-ratio keys; `none` when the loop
exhausts. -/
noncomputable def escolher_eletroduto (area_total : ℝ) :
    List (ℝ × Eletroduto) → Option ResultadoEletroduto
  | [] => none
  | (bitola_mm, dados) :: resto =>
    if area_total ≤ dados.Area_40_perc_mm2 then
      some ⟨bitola_mm, dados, area_total, area_total / dados.Area_Interna_mm2 * 100⟩
    else escolher_eletroduto area_total resto

/-- Embeds `dimensionar_eletroduto(dados_circuitos, areas_cabos, eletrodutos,
todas_opcoes_bitola)` from `src/app.py`: validate the grouping (propagating
the message, no conduit on failure), total the occupied area, and scan the
diameter-sorted conduits for the first fit. -/
noncomputable def dimensionar_eletroduto
    (dados_circuitos : List (ℝ × ℕ)) (areas_cabos : List (ℝ × ℝ))
    (eletrodutos : List (ℝ × Eletroduto)) (todas_opcoes_bitola : List ℝ) :
    Option ResultadoEletroduto × String :=
  let vm := validar_circuitos_agrupados (dados_circuitos.map Prod.fst) todas_opcoes_bitola
  if vm.1 then
    (escolher_eletroduto (area_total_ocupada dados_circuitos areas_cabos)
      (ordenar_eletrodutos eletrodutos), vm.2)
  else (none, vm.2)

end App

namespace App

/-- The occupied area is the sum over the entries of
`insulated_area[gauge] × count`, with absent gauges contributing `0`. -/
theorem area_total_ocupada_eq_sum (areas : List (ℝ × ℝ)) :
    ∀ dados : List (ℝ × ℕ),
      area_total_ocupada dados areas =
        (dados.map fun p => (busca p.1 areas).getD 0 * p.2).sum := by
  intro dados
  induction dados with
  | nil => rfl
  | cons p resto ih =>
    obtain ⟨bitola, num⟩ := p
    rw [area_total_ocupada, ih, List.map_cons, List.sum_cons]
    cases busca bitola areas <;> simp

/-- The conduit scan returns the entry after any run of too-small conduits. -/
theorem escolher_eletroduto_acha (area_total : ℝ) (bm : ℝ) (e : Eletroduto)
    (l₂ : List (ℝ × Eletroduto)) (hfit : area_total ≤ e.Area_40_perc_mm2) :
    ∀ l₁ : List (ℝ × Eletroduto),
      (∀ q ∈ l₁, ¬(area_total ≤ q.2.Area_40_perc_mm2)) →
      escolher_eletroduto area_total (l₁ ++ (bm, e) :: l₂) =
        some ⟨bm, e, area_total, area_total / e.Area_Interna_mm2 * 100⟩ := by
  intro l₁
  induction l₁ with
  | nil =>
    intro _
    rw [List.nil_append, escolher_eletroduto, if_pos hfit]
  | cons q l₁ ih =>
    intro hall
    obtain ⟨qb, qe⟩ := q
    rw [List.cons_append, escolher_eletroduto,
      if_neg (hall (qb, qe) (List.mem_cons_self _ _))]
    exact ih fun r hr => hall r (List.mem_cons_of_mem _ hr)

/-- When every conduit is too small the scan returns `none`. -/
theorem escolher_eletroduto_nenhum (area_total : ℝ) :
    ∀ l : List (ℝ × Eletroduto),
      (∀ q ∈ l, ¬(area_total ≤ q.2.Area_40_perc_mm2)) →
      escolher_eletroduto area_total l = none := by
  intro l
  induction l with
  | nil => intro _; rfl
  | cons q l ih =>
    intro hall
    obtain ⟨qb, qe⟩ := q
    rw [escolher_eletroduto, if_neg (hall (qb, qe) (List.mem_cons_self _ _))]
    exact ih fun r hr => hall r (List.mem_cons_of_mem _ hr)

/-- The diameter-sorted conduit list is ascending in the diameter. -/
theorem ordenar_eletrodutos_pairwise (els : List (ℝ × Eletroduto)) :
    ((ordenar_eletrodutos els).map Prod.fst).Pairwise (· ≤ ·) := by
  have h := @List.sorted_mergeSort (ℝ × Eletroduto) (fun p q => decide (p.1 ≤ q.1))
    (fun a b c hab hbc => by
      have hab' : a.1 ≤ b.1 := by simpa using hab
      have hbc' : b.1 ≤ c.1 := by simpa using hbc
      simpa using le_trans hab' hbc')
    (fun a b => by
      rcases le_total a.1 b.1 with h | h <;> simp [h])
    els
  rw [List.pairwise_map]
  exact h.imp fun hab => by simpa using hab

/-- **C4.** `dimensionar_eletroduto`: a failed grouping validation yields no
conduit and propagates the validation message; otherwise the occupied area
is `Σ insulated_area[gauge] × count` (absent gauges contributing 0) and the
result is the first conduit, in ascending diameter order, whose
`area_at_40pct ≥ occupied_area` (inclusive boundary, `≤`), carrying the
occupied area and `fill_ratio = occupied / internal_area × 100`; when no
conduit is large enough the conduit is `none` (with the OK message). -/
theorem dimensionar_eletroduto_spec
    (dados : List (ℝ × ℕ)) (areas : List (ℝ × ℝ))
    (els : List (ℝ × Eletroduto)) (todas : List ℝ) :
    ((validar_circuitos_agrupados (dados.map Prod.fst) todas).1 = false →
      dimensionar_eletroduto dados areas els todas =
        (none, (validar_circuitos_agrupados (dados.map Prod.fst) todas).2)) ∧
      (area_total_ocupada dados areas =
        (dados.map fun p => (busca p.1 areas).getD 0 * p.2).sum) ∧
      ((validar_circuitos_agrupados (dados.map Prod.fst) todas).1 = true →
        (∀ l₁ bm e l₂, ordenar_eletrodutos els = l₁ ++ (bm, e) :: l₂ →
          (∀ q ∈ l₁, ¬(area_total_ocupada dados areas ≤ q.2.Area_40_perc_mm2)) →
          area_total_ocupada dados areas ≤ e.Area_40_perc_mm2 →
          dimensionar_eletroduto dados areas els todas =
            (some ⟨bm, e, area_total_ocupada dados areas,
                area_total_ocupada dados areas / e.Area_Interna_mm2 * 100⟩,
              (validar_circuitos_agrupados (dados.map Prod.fst) todas).2)) ∧
        ((∀ q ∈ els, ¬(area_total_ocupada dados areas ≤ q.2.Area_40_perc_mm2)) →
          dimensionar_eletroduto dados areas els todas =
            (none, (validar_circuitos_agrupados (dados.map Prod.fst) todas).2)) ∧
        ((ordenar_eletrodutos els).map Prod.fst).Pairwise (· ≤ ·)) := by
  refine ⟨?_, area_total_ocupada_eq_sum areas dados, ?_⟩
  · intro hv
    simp only [dimensionar_eletroduto]
    rw [hv]
    rfl
  · intro hv
    refine ⟨?_, ?_, ordenar_eletrodutos_pairwise els⟩
    · intro l₁ bm e l₂ hdec hall hfit
      simp only [dimensionar_eletroduto]
      rw [hv, if_pos rfl, hdec, escolher_eletroduto_acha _ bm e l₂ hfit l₁ hall]
    · intro hall
      have hall' : ∀ q ∈ ordenar_eletrodutos els,
          ¬(area_total_ocupada dados areas ≤ q.2.Area_40_perc_mm2) :=
        fun q hq => hall q ((List.mergeSort_perm els _).subset hq)
      simp only [dimensionar_eletroduto]
      rw [hv, if_pos rfl, escolher_eletroduto_nenhum _ _ hall']

/-- Witness for C4 at the inclusive boundary: two 20 mm² conductors occupy
exactly the 40 %-area (40 mm²) of the single conduit, which is selected with
fill ratio 40 %. -/
theorem dimensionar_eletroduto_spec_witness :
    dimensionar_eletroduto [(10, 2)] [(10, 20)] [(25, ⟨100, 40⟩)] [10] =
      (some ⟨25, ⟨100, 40⟩, 40, 40⟩, MSG_OK) := by
  have hvm : validar_circuitos_agrupados (([(10, 2)] : List (ℝ × ℕ)).map Prod.fst) [10] =
      (true, MSG_OK) := by
    simp [validar_circuitos_agrupados, ordenar_reais]
  have harea : area_total_ocupada [(10, 2)] [(10, 20)] = 40 := by
    rw [area_total_ocupada, area_total_ocupada]
    norm_num [busca]
  have h := ((dimensionar_eletroduto_spec [(10, 2)] [(10, 20)]
      [(25, ⟨100, 40⟩)] [10]).2.2 (by rw [hvm])).1
    [] 25 ⟨100, 40⟩ []
    (by simp [ordenar_eletrodutos])
    (by simp)
    (by rw [harea])
  rw [h, harea, hvm]
  norm_num

end App
